import Mathlib

/-!
Shallow embedding of the producer/consumer system in `src/producer.c` and
`src/consumer.c`: a producer process reads integers from a file under a mutex
shared with a counter `numbers_read`, sends each as a 4-byte network-byte-order
frame over a TCP socket, and a consumer process receives frames under a mutex
and appends the decoded values to a fixed array `data_array` at index
`data_index`.  Machine integers are modelled as `Int`/`Nat` with explicit
reduction modulo 2^32 where the C code casts between `int` and `uint32_t`.
-/

namespace ProdCons

/-- `NUM_THREADS` from both sources: 2 worker threads per side. -/
def NUM_THREADS : Nat := 2

/-- `MAX_DATA` from both sources: capacity of the buffer and cap of the read counter. -/
def MAX_DATA : Nat := 100

/-- `MAX_RETRIES` from `producer.c` line 122. -/
def MAX_RETRIES : Nat := 50

/-- 2^32, the modulus of the `uint32_t` casts. -/
def UINT32_MOD : Nat := 4294967296

/-- 2^31, the bound of a 32-bit signed integer. -/
def INT32_BOUND : Nat := 2147483648

/-- A value is representable as a C `int` (32-bit signed). -/
def Int32Range (v : Int) : Prop := -(INT32_BOUND : Int) ≤ v ∧ v < (INT32_BOUND : Int)

/-- One 4-byte wire frame, as the four octets sent over the socket
(big-endian order, the result of `htonl`). -/
structure Frame where
  b0 : Nat
  b1 : Nat
  b2 : Nat
  b3 : Nat
deriving DecidableEq, Repr

/-- The `(uint32_t)value` cast in `producer.c` line 63: reduce the signed
value modulo 2^32. -/
def toUInt32Nat (v : Int) : Nat := (v % (UINT32_MOD : Int)).toNat

/-- `htonl((uint32_t)value)` followed by the byte-wise transmission in
`producer.c` lines 63-64: the 4 bytes of the value in big-endian order. -/
def encodeFrame (v : Int) : Frame :=
  ⟨toUInt32Nat v / 16777216 % 256, toUInt32Nat v / 65536 % 256,
   toUInt32Nat v / 256 % 256, toUInt32Nat v % 256⟩

/-- Reassemble the received 4 bytes into the `uint32_t` that `ntohl`
returns (`consumer.c` line 77). -/
def frameToNat (f : Frame) : Nat :=
  f.b0 * 16777216 + f.b1 * 65536 + f.b2 * 256 + f.b3

/-- The `(int)` cast in `consumer.c` line 77: reinterpret the `uint32_t`
as a 32-bit signed integer (two's complement). -/
def uint32ToInt (x : Nat) : Int :=
  if x < INT32_BOUND then (x : Int) else (x : Int) - (UINT32_MOD : Int)

/-- `(int)ntohl(net_val)` in `consumer.c` line 77, applied to a received frame. -/
def decodeFrame (f : Frame) : Int := uint32ToInt (frameToNat f)

theorem frameToNat_encodeFrame (v : Int) :
    frameToNat (encodeFrame v) = toUInt32Nat v := by
  have h : toUInt32Nat v < UINT32_MOD := by
    unfold toUInt32Nat UINT32_MOD
    omega
  simp only [frameToNat, encodeFrame]
  unfold UINT32_MOD at h
  omega

theorem decode_encode (v : Int) (h : Int32Range v) :
    decodeFrame (encodeFrame v) = v := by
  obtain ⟨h1, h2⟩ := h
  rw [decodeFrame, frameToNat_encodeFrame]
  unfold uint32ToInt toUInt32Nat UINT32_MOD INT32_BOUND
  unfold INT32_BOUND at h1 h2
  split <;> omega

/-! ## Consumer worker loop (`consumer_thread_func`, `consumer.c` lines 43-86)

Each loop iteration holds `array_mutex` for its entire body (the `recv`
included), so the concurrent execution of the two consumer threads is a
serialization of whole iterations; we model one iteration as an atomic step. -/

/-- The status line printed on an insertion or a read: it identifies the
worker (PID/thread id) and carries the transferred value. -/
structure StatusRecord where
  worker : Nat
  value : Int
deriving DecidableEq, Repr

/-- Outcome of `recv(conn_fd, &net_val, 4, MSG_WAITALL)` in `consumer.c`
line 61: `closed` is a return of 0, `err` a negative return, `short n` a
return of `n` bytes with `n ≠ 4`, `frame f` a full 4-byte read. -/
inductive RecvResult where
  | closed : RecvResult
  | err : RecvResult
  | short : Nat → RecvResult
  | frame : Frame → RecvResult
deriving DecidableEq, Repr

/-- The consumer's shared state guarded by `array_mutex`: the array
`data_array` (as a total map from index to stored value, all slots
zero-initialized as C globals are) and the next-write index `data_index`. -/
structure ConsumerState where
  buf : Nat → Int
  idx : Nat

/-- Initial consumer shared state (`consumer.c` lines 28-29). -/
def cInitState : ConsumerState := ⟨fun _ => 0, 0⟩

/-- How one consumer loop iteration ends (`consumer.c` lines 50-84). -/
inductive CIterOutcome where
  | exitFull : CIterOutcome
  | exitClosed : CIterOutcome
  | exitRecvErr : CIterOutcome
  | exitShort : Nat → CIterOutcome
  | stored : StatusRecord → CIterOutcome
deriving DecidableEq, Repr

/-- Whether the outcome exits the worker's loop (`break` in the source). -/
def CIterOutcome.exits : CIterOutcome → Bool
  | .stored _ => false
  | _ => true

/-- The diagnostic the iteration writes to the error stream, if any:
`perror("recv failed")` on a receive error (`consumer.c` line 67) and the
`fprintf(stderr, ...)` on a short read (line 72); nothing on a peer close
(line 62-65), which is a plain `break`. -/
def CIterOutcome.errLog : CIterOutcome → Option String
  | .exitRecvErr => some "recv failed"
  | .exitShort _ => some "Partial read from socket"
  | _ => none

/-- Whether the loop exit is an error termination: exactly the logged exits. -/
def CIterOutcome.isErrorExit (o : CIterOutcome) : Bool := o.errLog.isSome

/-- One iteration of the consumer loop body (`consumer.c` lines 50-84),
for worker `w`, given the result `r` of the `recv` call: returns the
shared state after the iteration and how the iteration ended.  The full
check (line 54) precedes the `recv`; on a 4-byte frame the value is
decoded, stored at `data_index`, the index incremented and the status
line printed (lines 77-81). -/
def consumerIter (w : Nat) (s : ConsumerState) (r : RecvResult) :
    ConsumerState × CIterOutcome :=
  if s.idx ≥ MAX_DATA then (s, .exitFull)
  else match r with
    | .closed => (s, .exitClosed)
    | .err => (s, .exitRecvErr)
    | .short n => (s, .exitShort n)
    | .frame f =>
        (⟨fun j => if j = s.idx then decodeFrame f else s.buf j, s.idx + 1⟩,
         .stored ⟨w, decodeFrame f⟩)

/-- State of the consumer worker pool: the shared mutex-guarded state plus
which of the `NUM_THREADS` workers are still in their loop. -/
structure CPoolState where
  cs : ConsumerState
  active : Nat → Bool

/-- Pool state at thread creation (`consumer.c` lines 152-161). -/
def cPoolInit : CPoolState := ⟨cInitState, fun _ => true⟩

/-- Effect of worker `w` performing one (mutex-serialized) loop iteration
with receive result `r`: the shared state is updated by `consumerIter`,
and the worker leaves the pool iff the iteration exits its loop. -/
def cApplyIter (p : CPoolState) (w : Nat) (r : RecvResult) : CPoolState :=
  ⟨(consumerIter w p.cs r).1,
   if (consumerIter w p.cs r).2.exits
   then fun u => if u = w then false else p.active u
   else p.active⟩

/-- One serialized step of the consumer pool: some still-active worker
`w < NUM_THREADS` runs one full iteration under the mutex.  `allowed`
constrains which frames the socket can deliver (the whole stream was
produced by 4-byte `send`s and is read 4 bytes at a time under the mutex,
so every full read yields one sent frame); instantiate it with
`fun _ => True` for unconstrained runs. -/
inductive cPoolStep (allowed : Frame → Prop) : CPoolState → CPoolState → Prop where
  | step (p : CPoolState) (w : Nat) (r : RecvResult) (hw : w < NUM_THREADS)
      (ha : p.active w = true) (hf : ∀ f, r = .frame f → allowed f) :
      cPoolStep allowed p (cApplyIter p w r)

/-- Consumer pool states reachable from thread creation. -/
inductive CReach (allowed : Frame → Prop) : CPoolState → Prop where
  | init : CReach allowed cPoolInit
  | step (p q : CPoolState) (hp : CReach allowed p) (hs : cPoolStep allowed p q) :
      CReach allowed q

theorem cReach_idx_le (allowed : Frame → Prop) (p : CPoolState)
    (h : CReach allowed p) : p.cs.idx ≤ MAX_DATA := by
  induction h with
  | init => simp [cPoolInit, cInitState]
  | step p q hp hs ih =>
      cases hs with
      | step w r hw ha hf =>
          simp only [cApplyIter, consumerIter]
          split
          · exact ih
          · rename_i hlt
            cases r
            · exact ih
            · exact ih
            · exact ih
            · show p.cs.idx + 1 ≤ MAX_DATA
              unfold MAX_DATA at hlt ⊢
              omega

/-- Step characterization: every pool step either leaves the buffer and
index unchanged, or (only when the buffer is not full) writes one value at
the current index and increments the index by one. -/
theorem cStep_write_char (allowed : Frame → Prop) (p q : CPoolState)
    (hs : cPoolStep allowed p q) :
    ((∀ j, q.cs.buf j = p.cs.buf j) ∧ q.cs.idx = p.cs.idx) ∨
    (p.cs.idx < MAX_DATA ∧ q.cs.idx = p.cs.idx + 1 ∧
      (∀ j, j ≠ p.cs.idx → q.cs.buf j = p.cs.buf j) ∧
      (∃ v, q.cs.buf p.cs.idx = v)) := by
  cases hs with
  | step w r hw ha hf =>
      simp only [cApplyIter, consumerIter]
      split
      · left; simp
      · cases r with
        | closed => left; simp
        | err => left; simp
        | short n => left; simp
        | frame f =>
            right
            refine ⟨by omega, rfl, ?_, ⟨decodeFrame f, by simp⟩⟩
            intro j hj
            simp [hj]

theorem cStep_full_frozen (allowed : Frame → Prop) (p q : CPoolState)
    (hs : cPoolStep allowed p q) (hfull : p.cs.idx = MAX_DATA) :
    (∀ j, q.cs.buf j = p.cs.buf j) ∧ q.cs.idx = p.cs.idx := by
  cases hs with
  | step w r hw ha hf =>
      have hge : p.cs.idx ≥ MAX_DATA := le_of_eq hfull.symm
      simp only [cApplyIter, consumerIter, if_pos hge]
      simp

/-! ## Producer worker loop (`producer_thread_func`, `producer.c` lines 33-74)

The critical section (`file_mutex`) covers the cap check, the `fscanf` and
the `numbers_read++` (lines 44-61); the `send` happens outside the lock
(lines 63-70).  We model the critical section as one atomic step and the
send as a separate step. -/

/-- The producer's shared state guarded by `file_mutex`: the counter
`numbers_read` and the remaining parseable content of the input file
(`fscanf(input_file, "%d", &value)` succeeds iff this list is nonempty;
an exhausted or malformed file is the empty list, since `fscanf != 1`
covers both EOF and a parse failure). -/
structure ProducerState where
  numbers_read : Nat
  source : List Int

/-- How one pass through the critical section ends (`producer.c` lines 44-61). -/
inductive PIterOutcome where
  | exitMax : PIterOutcome
  | exitExhausted : PIterOutcome
  | read : Int → StatusRecord → PIterOutcome
deriving DecidableEq, Repr

/-- One execution of the producer's critical section (`producer.c` lines
44-61) by worker `w`: stop if `numbers_read >= MAX_DATA`; stop if the
`fscanf` fails (source exhausted or malformed); otherwise consume the next
value, increment `numbers_read` and print the status line. -/
def producerIter (w : Nat) (s : ProducerState) : ProducerState × PIterOutcome :=
  if s.numbers_read ≥ MAX_DATA then (s, .exitMax)
  else match s.source with
    | [] => (s, .exitExhausted)
    | v :: rest => (⟨s.numbers_read + 1, rest⟩, .read v ⟨w, v⟩)

/-- State of the producer worker pool: the shared mutex-guarded state, the
value each worker has read but not yet sent (the send is outside the
lock), the values successfully written to the socket, and which workers
are still in their loop. -/
structure PPoolState where
  ps : ProducerState
  pending : Nat → Option Int
  sent : List Int
  active : Nat → Bool

/-- Pool state at thread creation (`producer.c` lines 167-176), for input
file content `src`. -/
def pPoolInit (src : List Int) : PPoolState :=
  ⟨⟨0, src⟩, fun _ => none, [], fun _ => true⟩

/-- Effect of worker `w` running the critical section once: on a
successful read the value becomes the worker's pending send; on either
exit condition the worker leaves its loop (`break`). -/
def pApplyIter (p : PPoolState) (w : Nat) : PPoolState :=
  match producerIter w p.ps with
  | (ps', .read v _) =>
      ⟨ps', fun u => if u = w then some v else p.pending u, p.sent, p.active⟩
  | (ps', _) =>
      ⟨ps', p.pending, p.sent, fun u => if u = w then false else p.active u⟩

/-- One step of the producer pool.  `allowSendFail` enables the
send-failure branch (`producer.c` lines 67-70); a run with it `false` is a
run in which every `send` transfers the full 4 bytes. -/
inductive pPoolStep (allowSendFail : Bool) : PPoolState → PPoolState → Prop where
  | lock (p : PPoolState) (w : Nat) (hw : w < NUM_THREADS)
      (ha : p.active w = true) (hp : p.pending w = none) :
      pPoolStep allowSendFail p (pApplyIter p w)
  | sendOk (p : PPoolState) (w : Nat) (v : Int) (hw : w < NUM_THREADS)
      (ha : p.active w = true) (hv : p.pending w = some v) :
      pPoolStep allowSendFail p
        ⟨p.ps, fun u => if u = w then none else p.pending u, p.sent ++ [v], p.active⟩
  | sendFail (p : PPoolState) (w : Nat) (v : Int) (hall : allowSendFail = true)
      (hw : w < NUM_THREADS) (ha : p.active w = true) (hv : p.pending w = some v) :
      pPoolStep allowSendFail p
        ⟨p.ps, fun u => if u = w then none else p.pending u, p.sent,
         fun u => if u = w then false else p.active u⟩

/-- Producer pool states reachable from thread creation on input `src`. -/
inductive PReach (allowSendFail : Bool) (src : List Int) : PPoolState → Prop where
  | init : PReach allowSendFail src (pPoolInit src)
  | step (p q : PPoolState) (hp : PReach allowSendFail src p)
      (hs : pPoolStep allowSendFail p q) : PReach allowSendFail src q

/-- Count of an optional pending value. -/
def optCount : Option Int → Nat
  | none => 0
  | some _ => 1

theorem optCount_none : optCount none = 0 := rfl

theorem optCount_some (v : Int) : optCount (some v) = 1 := rfl

/-- Total values read but not yet sent, over the two workers. -/
def pendCount (p : PPoolState) : Nat := optCount (p.pending 0) + optCount (p.pending 1)

/-- The global producer-pool invariant: the counter never exceeds
`MAX_DATA` nor the source length; the unread part of the source is
exactly what remains after `numbers_read` in-order reads (no value skipped
or read twice); when sends cannot fail, the sent and pending values
account exactly for the reads and a worker that left its loop holds no
pending value. -/
theorem pReach_invariant (b : Bool) (src : List Int) (p : PPoolState)
    (h : PReach b src p) :
    p.ps.numbers_read ≤ MAX_DATA ∧
    p.ps.numbers_read ≤ src.length ∧
    p.ps.source = src.drop p.ps.numbers_read ∧
    (b = false → p.sent.length + pendCount p = p.ps.numbers_read) ∧
    (b = false → ∀ u, p.active u = false → p.pending u = none) := by
  induction h with
  | init =>
      refine ⟨by simp [pPoolInit, MAX_DATA], by simp [pPoolInit], by simp [pPoolInit],
        by simp [pPoolInit, pendCount, optCount], ?_⟩
      intro _ u hu
      simp [pPoolInit] at hu
  | step p q hp hs ih =>
      obtain ⟨ih1, ih2, ih3, ih4, ih5⟩ := ih
      cases hs with
      | lock w hw ha hpend =>
          by_cases hge : p.ps.numbers_read ≥ MAX_DATA
          · have hiter : producerIter w p.ps = (p.ps, .exitMax) := by
              simp [producerIter, hge]
            simp only [pApplyIter, hiter]
            refine ⟨ih1, ih2, ih3, ih4, ?_⟩
            intro hb u hu
            replace hu : (if u = w then false else p.active u) = false := hu
            show p.pending u = none
            by_cases huw : u = w
            · subst huw; exact hpend
            · rw [if_neg huw] at hu
              exact ih5 hb u hu
          · cases hsrc : p.ps.source with
            | nil =>
                have hiter : producerIter w p.ps = (p.ps, .exitExhausted) := by
                  simp [producerIter, hge, hsrc]
                simp only [pApplyIter, hiter]
                refine ⟨ih1, ih2, ih3, ih4, ?_⟩
                intro hb u hu
                replace hu : (if u = w then false else p.active u) = false := hu
                show p.pending u = none
                by_cases huw : u = w
                · subst huw; exact hpend
                · rw [if_neg huw] at hu
                  exact ih5 hb u hu
            | cons v rest =>
                have hiter : producerIter w p.ps =
                    (⟨p.ps.numbers_read + 1, rest⟩, .read v ⟨w, v⟩) := by
                  simp [producerIter, hge, hsrc]
                simp only [pApplyIter, hiter]
                have h3 : v :: rest = src.drop p.ps.numbers_read := hsrc ▸ ih3
                have hlen : p.ps.numbers_read < src.length := by
                  by_contra hcon
                  rw [List.drop_eq_nil_of_le (by omega)] at h3
                  cases h3
                have hdrop : rest = src.drop (p.ps.numbers_read + 1) := by
                  have hd := List.drop_drop 1 p.ps.numbers_read src
                  rw [← h3] at hd
                  simpa using hd
                have hw01 : w = 0 ∨ w = 1 := by
                  unfold NUM_THREADS at hw
                  omega
                refine ⟨by unfold MAX_DATA at hge ⊢; omega, by omega, hdrop, ?_, ?_⟩
                · intro hb
                  have ihd := ih4 hb
                  rcases hw01 with h0 | h1
                  · subst h0
                    simp only [pendCount, hpend, optCount_none] at ihd
                    simp [pendCount, optCount_some, optCount_none]
                    omega
                  · subst h1
                    simp only [pendCount, hpend, optCount_none] at ihd
                    simp [pendCount, optCount_some, optCount_none]
                    omega
                · intro hb u hu
                  replace hu : p.active u = false := hu
                  show (if u = w then some v else p.pending u) = none
                  by_cases huw : u = w
                  · subst huw
                    rw [ha] at hu
                    cases hu
                  · rw [if_neg huw]
                    exact ih5 hb u hu
      | sendOk w v hw ha hv =>
          refine ⟨ih1, ih2, ih3, ?_, ?_⟩
          · intro hb
            have ihd := ih4 hb
            have hw01 : w = 0 ∨ w = 1 := by
              unfold NUM_THREADS at hw
              omega
            rcases hw01 with h0 | h1
            · subst h0
              simp only [pendCount, hv, optCount_some] at ihd
              simp [pendCount, optCount_some, optCount_none]
              omega
            · subst h1
              simp only [pendCount, hv, optCount_some] at ihd
              simp [pendCount, optCount_some, optCount_none]
              omega
          · intro hb u hu
            replace hu : p.active u = false := hu
            show (if u = w then none else p.pending u) = none
            by_cases huw : u = w
            · rw [if_pos huw]
            · rw [if_neg huw]
              exact ih5 hb u hu
      | sendFail w v hall hw ha hv =>
          refine ⟨ih1, ih2, ih3, ?_, ?_⟩
          · intro hb
            rw [hb] at hall
            cases hall
          · intro hb
            rw [hb] at hall
            cases hall

/-- Pool steps never decrease the read counter. -/
theorem pStep_mono (b : Bool) (p q : PPoolState) (hs : pPoolStep b p q) :
    p.ps.numbers_read ≤ q.ps.numbers_read := by
  cases hs with
  | lock w hw ha hpend =>
      by_cases hge : p.ps.numbers_read ≥ MAX_DATA
      · have hiter : producerIter w p.ps = (p.ps, .exitMax) := by
          simp [producerIter, hge]
        simp only [pApplyIter, hiter]
        exact le_refl _
      · cases hsrc : p.ps.source with
        | nil =>
            have hiter : producerIter w p.ps = (p.ps, .exitExhausted) := by
              simp [producerIter, hge, hsrc]
            simp only [pApplyIter, hiter]
            exact le_refl _
        | cons v rest =>
            have hiter : producerIter w p.ps =
                (⟨p.ps.numbers_read + 1, rest⟩, .read v ⟨w, v⟩) := by
              simp [producerIter, hge, hsrc]
            simp only [pApplyIter, hiter]
            exact Nat.le_succ _
  | sendOk w v hw ha hv => exact le_refl _
  | sendFail w v hall hw ha hv => exact le_refl _

/-- Once any worker has left its loop (in a run without send failures on a
source shorter than `MAX_DATA`), the source is exhausted: the only exit a
worker can take in such a run is the `fscanf` failure, which happens
exactly when the source is empty, and the source never refills. -/
theorem pReach_exhausted (src : List Int) (p : PPoolState)
    (hK : src.length < MAX_DATA) (h : PReach false src p) :
    (∃ u, p.active u = false) → p.ps.source = [] := by
  induction h with
  | init =>
      intro ⟨u, hu⟩
      simp [pPoolInit] at hu
  | step p q hp hs ih =>
      intro ⟨u, hu⟩
      have hinv := pReach_invariant false src p hp
      obtain ⟨-, hn_len, hsrc_drop, -, -⟩ := hinv
      cases hs with
      | lock w hw ha hpend =>
          by_cases hge : p.ps.numbers_read ≥ MAX_DATA
          · exfalso
            omega
          · cases hsrc : p.ps.source with
            | nil =>
                have hiter : producerIter w p.ps = (p.ps, .exitExhausted) := by
                  simp [producerIter, hge, hsrc]
                simp only [pApplyIter, hiter]
                exact hsrc
            | cons v rest =>
                exfalso
                have hiter : producerIter w p.ps =
                    (⟨p.ps.numbers_read + 1, rest⟩, .read v ⟨w, v⟩) := by
                  simp [producerIter, hge, hsrc]
                simp only [pApplyIter, hiter] at hu
                have hx := ih ⟨u, hu⟩
                rw [hsrc] at hx
                cases hx
      | sendOk w v hw ha hv =>
          exact ih ⟨u, hu⟩
      | sendFail w v hall hw ha hv =>
          cases hall

/-! ## Process setup and exit paths (`main` in both sources) -/

/-- `EXIT_FAILURE` as used by `exit(EXIT_FAILURE)`. -/
def EXIT_FAILURE : Nat := 1

/-- Outcome of one `connect(2)` call in `producer.c` line 137, by `errno`
class: `refused`/`unreach` are the retryable `ECONNREFUSED`/`ENETUNREACH`
failures of line 146, `other` any other failure. -/
inductive ConnOutcome where
  | ok : ConnOutcome
  | refused : ConnOutcome
  | unreach : ConnOutcome
  | other : ConnOutcome
deriving DecidableEq, Repr

/-- What the producer's connect-retry loop did: whether it connected, how
many sockets it created (one fresh socket per attempt, line 128), how many
failed sockets it closed (line 143), how many 100 ms `usleep` waits it
performed (line 147), whether it sent `SIGTERM` to the consumer child, and
the process exit code if the loop exits the process. -/
structure ConnResult where
  connected : Bool
  attempts : Nat
  closedSockets : Nat
  sleeps : Nat
  killedChild : Bool
  exitCode : Option Nat
deriving DecidableEq, Repr

/-- The connect-retry loop of `producer.c` lines 125-164.  `conn n` is the
outcome of the connect call on the `n`-th socket, `sockOk n` whether the
`n`-th `socket(2)` call succeeds.  `retries` is the counter of line 121.
Each iteration creates a fresh socket; on success it breaks; on a
retryable failure it closes the socket, sleeps 100 ms, increments
`retries` and either retries or — once `retries` exceeds `MAX_RETRIES` —
kills the child and exits with failure; any other connect error kills the
child and exits with failure at once. -/
def connectLoop (conn : Nat → ConnOutcome) (sockOk : Nat → Bool)
    (attempt retries : Nat) : ConnResult :=
  if sockOk attempt = false then
    ⟨false, 1, 0, 0, true, some EXIT_FAILURE⟩
  else
    match conn attempt with
    | .ok => ⟨true, 1, 0, 0, false, none⟩
    | .other => ⟨false, 1, 1, 0, true, some EXIT_FAILURE⟩
    | .refused =>
        if h2 : retries + 1 > MAX_RETRIES then
          ⟨false, 1, 1, 1, true, some EXIT_FAILURE⟩
        else
          let r := connectLoop conn sockOk (attempt + 1) (retries + 1)
          ⟨r.connected, r.attempts + 1, r.closedSockets + 1, r.sleeps + 1,
           r.killedChild, r.exitCode⟩
    | .unreach =>
        if h2 : retries + 1 > MAX_RETRIES then
          ⟨false, 1, 1, 1, true, some EXIT_FAILURE⟩
        else
          let r := connectLoop conn sockOk (attempt + 1) (retries + 1)
          ⟨r.connected, r.attempts + 1, r.closedSockets + 1, r.sleeps + 1,
           r.killedChild, r.exitCode⟩
termination_by MAX_RETRIES + 1 - retries
decreasing_by
  all_goals omega

/-- The for-loop of `pthread_create` calls with `break` on failure
(`producer.c` lines 170-176, `consumer.c` lines 155-161): the number of
threads created before the first failure, capped at `NUM_THREADS`. -/
def threadsCreated (createOk : Nat → Bool) : Nat :=
  if createOk 0 = false then 0 else if createOk 1 = false then 1 else NUM_THREADS

/-- Environment of the producer's `main`: whether `fork` and `fopen`
succeed, the per-attempt socket/connect outcomes, and per-index
`pthread_create` success. -/
structure ProducerEnv where
  forkOk : Bool
  fopenOk : Bool
  sockOk : Nat → Bool
  conn : Nat → ConnOutcome
  createOk : Nat → Bool

/-- Result of a process `main`: its exit code, whether it sent `SIGTERM`
to the peer process, and how many worker threads it created and joined. -/
structure ProcResult where
  exitCode : Nat
  killedChild : Bool
  threadsJoined : Nat
deriving DecidableEq, Repr

/-- `main` of `producer.c` (lines 76-190): fork failure and `fopen`
failure exit with `EXIT_FAILURE` (the latter after killing the child);
then the connect-retry loop runs, and if it exits the process its exit
code stands; otherwise the threads are created (stopping at the first
`pthread_create` failure), the created ones joined, and `main` returns 0
— also when thread creation failed. -/
def producerMain (env : ProducerEnv) : ProcResult :=
  if env.forkOk = false then ⟨EXIT_FAILURE, false, 0⟩
  else if env.fopenOk = false then ⟨EXIT_FAILURE, true, 0⟩
  else
    match (connectLoop env.conn env.sockOk 0 0).exitCode with
    | some code => ⟨code, (connectLoop env.conn env.sockOk 0 0).killedChild, 0⟩
    | none => ⟨0, false, threadsCreated env.createOk⟩

/-- Outcome of the consumer's `accept` call (`consumer.c` line 133):
a connection, a failure with the 5-second alarm fired (`timed_out` set by
`alarm_handler`), or any other failure. -/
inductive AcceptOutcome where
  | conn : AcceptOutcome
  | timeout : AcceptOutcome
  | err : AcceptOutcome
deriving DecidableEq, Repr

/-- Environment of the consumer's `main`: success of each setup call, the
accept outcome, per-index `pthread_create` success, and the number of
insertions the worker threads perform once running. -/
structure ConsumerEnv where
  socketOk : Bool
  sockoptOk : Bool
  bindOk : Bool
  listenOk : Bool
  accept : AcceptOutcome
  createOk : Nat → Bool
  insertionsRun : Nat

/-- Result of the consumer's `main`: exit code, diagnostics written to the
error stream, number of buffer insertions performed, threads joined. -/
structure ConsumerResult where
  exitCode : Nat
  diag : List String
  insertions : Nat
  threadsJoined : Nat
deriving DecidableEq, Repr

/-- `main` of `consumer.c` (lines 88-171): socket, setsockopt, bind and
listen failures exit with `EXIT_FAILURE`; an `accept` failure with the
alarm fired prints the timeout diagnostic and returns 0 before any thread
is created; any other `accept` failure exits with `EXIT_FAILURE`; on a
connection the threads are created (stopping at the first failed
`pthread_create`, which is logged), the created ones joined, and `main`
returns 0 — also when thread creation failed. -/
def consumerMain (env : ConsumerEnv) : ConsumerResult :=
  if env.socketOk = false then ⟨EXIT_FAILURE, ["socket creation failed"], 0, 0⟩
  else if env.sockoptOk = false then ⟨EXIT_FAILURE, ["setsockopt failed"], 0, 0⟩
  else if env.bindOk = false then ⟨EXIT_FAILURE, ["bind failed"], 0, 0⟩
  else if env.listenOk = false then ⟨EXIT_FAILURE, ["listen failed"], 0, 0⟩
  else
    match env.accept with
    | .timeout => ⟨0, ["No producer connected within timeout period"], 0, 0⟩
    | .err => ⟨EXIT_FAILURE, ["accept failed"], 0, 0⟩
    | .conn =>
        ⟨0,
         if threadsCreated env.createOk < NUM_THREADS then ["pthread_create"] else [],
         if threadsCreated env.createOk = 0 then 0 else env.insertionsRun,
         threadsCreated env.createOk⟩

/-- `producer.c` line 77: `signal(SIGPIPE, SIG_IGN)` is the first
statement of `main`, so `SIGPIPE` is ignored for the entire run. -/
def producerIgnoresSigpipe : Bool := true

/-- What a `send` to a peer that closed the connection does to the
process.  This models the POSIX signal semantics surrounding the code,
not repository code: with `SIGPIPE` ignored the `send` returns -1 with
`errno = EPIPE`; under the default disposition the signal kills the
process. -/
inductive SendEffect where
  | errorReturn : SendEffect
  | processKilled : SendEffect
deriving DecidableEq, Repr

/-- Effect of `send` on a closed connection as a function of the process's
`SIGPIPE` disposition (POSIX semantics). -/
def sendToClosedPeer (sigpipeIgnored : Bool) : SendEffect :=
  if sigpipeIgnored then .errorReturn else .processKilled

/-- Closed form of the retry loop when every attempt fails with a
retryable error: starting from `retries = r` with `r + k = MAX_RETRIES`,
the loop makes `k + 1` further attempts, each on a fresh socket that is
closed again, sleeps `k + 1` times, kills the child and exits with
`EXIT_FAILURE`. -/
theorem connectLoop_allRefused (conn : Nat → ConnOutcome) (sockOk : Nat → Bool)
    (hs : ∀ n, sockOk n = true)
    (hc : ∀ n, conn n = .refused ∨ conn n = .unreach) :
    ∀ k r a, r + k = MAX_RETRIES →
      connectLoop conn sockOk a r =
        ⟨false, k + 1, k + 1, k + 1, true, some EXIT_FAILURE⟩ := by
  intro k
  induction k with
  | zero =>
      intro r a hr
      have hgt : r + 1 > MAX_RETRIES := by omega
      rw [connectLoop, hs a]
      rcases hc a with h | h <;>
        simp [h, hgt]
  | succ k ih =>
      intro r a hr
      have hle : ¬ (r + 1 > MAX_RETRIES) := by omega
      have hrec := ih (r + 1) (a + 1) (by omega)
      rw [connectLoop, hs a]
      rcases hc a with h | h <;>
        simp [h, hle, hrec]

/-! ## Helper lemmas for the claims -/

/-- The frames that can be delivered to the consumer when the producer
side sent exactly the values of `sent`: each full 4-byte read yields the
encoding of some sent value. -/
def sentFrames (sent : List Int) : Frame → Prop :=
  fun f => ∃ u ∈ sent, encodeFrame u = f

/-- Every occupied buffer slot satisfies any property enjoyed by the
decodings of the deliverable frames: slots below `data_index` are only
ever filled by the 4-byte-frame branch of the loop. -/
theorem cReach_buf_prop (allowed : Frame → Prop) (P : Int → Prop)
    (hP : ∀ f, allowed f → P (decodeFrame f)) (p : CPoolState)
    (h : CReach allowed p) : ∀ j, j < p.cs.idx → P (p.cs.buf j) := by
  induction h with
  | init =>
      intro j hj
      simp [cPoolInit, cInitState] at hj
  | step p q hp hs ih =>
      cases hs with
      | step w r hw ha hf =>
          intro j hj
          by_cases hge : p.cs.idx ≥ MAX_DATA
          · have hit : consumerIter w p.cs r = (p.cs, .exitFull) := by
              simp [consumerIter, hge]
            simp only [cApplyIter, hit] at hj ⊢
            exact ih j hj
          · cases r with
            | closed =>
                have hit : consumerIter w p.cs .closed = (p.cs, .exitClosed) := by
                  simp [consumerIter, hge]
                simp only [cApplyIter, hit] at hj ⊢
                exact ih j hj
            | err =>
                have hit : consumerIter w p.cs .err = (p.cs, .exitRecvErr) := by
                  simp [consumerIter, hge]
                simp only [cApplyIter, hit] at hj ⊢
                exact ih j hj
            | short n =>
                have hit : consumerIter w p.cs (.short n) = (p.cs, .exitShort n) := by
                  simp [consumerIter, hge]
                simp only [cApplyIter, hit] at hj ⊢
                exact ih j hj
            | frame f =>
                have hit : consumerIter w p.cs (.frame f) =
                    (⟨fun i => if i = p.cs.idx then decodeFrame f else p.cs.buf i,
                      p.cs.idx + 1⟩, .stored ⟨w, decodeFrame f⟩) := by
                  simp [consumerIter, hge]
                simp only [cApplyIter, hit] at hj ⊢
                by_cases hji : j = p.cs.idx
                · show P (if j = p.cs.idx then decodeFrame f else p.cs.buf j)
                  rw [if_pos hji]
                  exact hP f (hf f rfl)
                · show P (if j = p.cs.idx then decodeFrame f else p.cs.buf j)
                  rw [if_neg hji]
                  have hj' : j < p.cs.idx := by
                    replace hj : j < p.cs.idx + 1 := hj
                    omega
                  exact ih j hj'

/-- The retry loop on a successful connect attempt: one fresh socket, no
sleep, no kill, no process exit. -/
theorem connectLoop_ok (conn : Nat → ConnOutcome) (sockOk : Nat → Bool)
    (a r : Nat) (hs : sockOk a = true) (hc : conn a = .ok) :
    connectLoop conn sockOk a r = ⟨true, 1, 0, 0, false, none⟩ := by
  rw [connectLoop, hs]
  simp [hc]

/-! ## The claims -/

/-- C1: for the consumer's shared bounded buffer with capacity
`C = MAX_DATA = 100`, the next-write index `data_index` satisfies
`0 ≤ i ≤ C` in every reachable state of every run (the lower bound is the
`Nat` representation); every step either leaves the buffer and index
unchanged or — only while `i < C` — writes at index `i` and increments
`i` by exactly one; and once `i = C` no step of any consumer worker
changes the buffer or the index again. -/
theorem claim_C1 (p : CPoolState) (h : CReach (fun _ => True) p) :
    p.cs.idx ≤ MAX_DATA ∧
    (∀ q, cPoolStep (fun _ => True) p q →
      (((∀ j, q.cs.buf j = p.cs.buf j) ∧ q.cs.idx = p.cs.idx) ∨
       (p.cs.idx < MAX_DATA ∧ q.cs.idx = p.cs.idx + 1 ∧
        (∀ j, j ≠ p.cs.idx → q.cs.buf j = p.cs.buf j)))) ∧
    (p.cs.idx = MAX_DATA →
      ∀ q, cPoolStep (fun _ => True) p q →
        (∀ j, q.cs.buf j = p.cs.buf j) ∧ q.cs.idx = p.cs.idx) := by
  refine ⟨cReach_idx_le _ p h, ?_, ?_⟩
  · intro q hs
    rcases cStep_write_char _ p q hs with h1 | ⟨h1, h2, h3, -⟩
    · exact Or.inl h1
    · exact Or.inr ⟨h1, h2, h3⟩
  · intro hfull q hs
    exact cStep_full_frozen _ p q hs hfull

theorem claim_C1_witness :
    CReach (fun _ => True) cPoolInit ∧ cPoolInit.cs.idx ≤ MAX_DATA :=
  ⟨CReach.init, (claim_C1 cPoolInit CReach.init).1⟩

/-- C2: for the producer's shared counter `numbers_read` with cap
`N = MAX_DATA = 100`, every reachable state of every run (with or without
send failures) satisfies `0 ≤ numbers_read ≤ N` (the lower bound is the
`Nat` representation); `numbers_read` never exceeds the source length and
is monotone along every step; and because the `fscanf` and the increment
are one atomic step under `file_mutex`, the remaining source is exactly
the original source with its first `numbers_read` values removed — the
workers consume the source in order, skipping none and repeating none. -/
theorem claim_C2 (b : Bool) (src : List Int) (p : PPoolState)
    (h : PReach b src p) :
    p.ps.numbers_read ≤ MAX_DATA ∧
    p.ps.numbers_read ≤ src.length ∧
    p.ps.source = src.drop p.ps.numbers_read ∧
    (∀ q, pPoolStep b p q → p.ps.numbers_read ≤ q.ps.numbers_read) := by
  have hinv := pReach_invariant b src p h
  exact ⟨hinv.1, hinv.2.1, hinv.2.2.1, fun q hs => pStep_mono b p q hs⟩

theorem claim_C2_witness :
    PReach false [3, 1] (pPoolInit [3, 1]) ∧
    (pPoolInit [3, 1]).ps.numbers_read ≤ MAX_DATA ∧
    (pPoolInit [3, 1]).ps.source = [3, 1].drop (pPoolInit [3, 1]).ps.numbers_read :=
  ⟨PReach.init, (claim_C2 false [3, 1] (pPoolInit [3, 1]) PReach.init).1,
   (claim_C2 false [3, 1] (pPoolInit [3, 1]) PReach.init).2.2.1⟩

/-- C3: decoding the 4-byte network-byte-order frame produced by encoding
any 32-bit signed integer `v` yields `v` again, and consequently, in any
consumer run whose deliverable frames are the encodings of the values in
`sent`, every occupied buffer slot holds a member of `sent` — bit-for-bit
a value sent by some producer worker. -/
theorem claim_C3 (v : Int) (hv : Int32Range v) :
    decodeFrame (encodeFrame v) = v ∧
    (∀ (sent : List Int), (∀ u, u ∈ sent → Int32Range u) →
      ∀ p, CReach (sentFrames sent) p →
        ∀ j, j < p.cs.idx → p.cs.buf j ∈ sent) := by
  refine ⟨decode_encode v hv, ?_⟩
  intro sent hr p h j hj
  refine cReach_buf_prop (sentFrames sent) (fun x => x ∈ sent) ?_ p h j hj
  intro f hf
  obtain ⟨u, hu, he⟩ := hf
  rw [← he, decode_encode u (hr u hu)]
  exact hu

theorem claim_C3_witness :
    Int32Range (-5) ∧ decodeFrame (encodeFrame (-5)) = -5 :=
  ⟨⟨by decide, by decide⟩, (claim_C3 (-5) ⟨by decide, by decide⟩).1⟩

/-- C4: in every iteration of a consumer worker's loop that finds the
buffer not yet full, a zero-byte receive exits the loop as a normal,
unlogged termination; a receive error exits as a logged error
termination; a nonzero receive of fewer than 4 bytes exits as a logged
error termination; a complete 4-byte frame is decoded from network byte
order, stored at `buffer[i]`, `i` is incremented, and a status record
identifying the worker and the value is emitted; and only the 4-byte
frame case stores anything. -/
theorem claim_C4 (w : Nat) (s : ConsumerState) (hlt : s.idx < MAX_DATA) :
    (consumerIter w s .closed = (s, .exitClosed) ∧
      CIterOutcome.exitClosed.exits = true ∧
      CIterOutcome.exitClosed.isErrorExit = false ∧
      CIterOutcome.exitClosed.errLog = none) ∧
    (consumerIter w s .err = (s, .exitRecvErr) ∧
      CIterOutcome.exitRecvErr.exits = true ∧
      CIterOutcome.exitRecvErr.isErrorExit = true ∧
      CIterOutcome.exitRecvErr.errLog = some "recv failed") ∧
    (∀ n, 0 < n → n < 4 →
      consumerIter w s (.short n) = (s, .exitShort n) ∧
      (CIterOutcome.exitShort n).exits = true ∧
      (CIterOutcome.exitShort n).isErrorExit = true ∧
      (CIterOutcome.exitShort n).errLog = some "Partial read from socket") ∧
    (∀ f, consumerIter w s (.frame f) =
      (⟨fun j => if j = s.idx then decodeFrame f else s.buf j, s.idx + 1⟩,
       .stored ⟨w, decodeFrame f⟩)) ∧
    (∀ r rec, (consumerIter w s r).2 = .stored rec →
      ∃ f, r = .frame f ∧ rec = ⟨w, decodeFrame f⟩) := by
  have hge : ¬ s.idx ≥ MAX_DATA := by omega
  refine ⟨?_, ?_, ?_, ?_, ?_⟩
  · exact ⟨by simp [consumerIter, hge], rfl, rfl, rfl⟩
  · exact ⟨by simp [consumerIter, hge], rfl, rfl, rfl⟩
  · intro n h0 h4
    exact ⟨by simp [consumerIter, hge], rfl, rfl, rfl⟩
  · intro f
    simp [consumerIter, hge]
  · intro r rec hst
    cases r with
    | closed => simp [consumerIter, hge] at hst
    | err => simp [consumerIter, hge] at hst
    | short n => simp [consumerIter, hge] at hst
    | frame f =>
        refine ⟨f, rfl, ?_⟩
        simp [consumerIter, hge] at hst
        exact hst.symm

theorem claim_C4_witness :
    cInitState.idx < MAX_DATA ∧
    consumerIter 0 cInitState .closed = (cInitState, .exitClosed) :=
  ⟨by decide, (claim_C4 0 cInitState (by decide)).1.1⟩

/-- A consumer environment in which every setup call succeeds, a producer
connects, and the first `pthread_create` fails. -/
def cEnvThreadFail : ConsumerEnv := ⟨true, true, true, true, .conn, fun _ => false, 7⟩

/-- C5 counterexample: with every setup call succeeding, a connection
accepted, and `pthread_create` failing, `consumer.c` logs the failure,
joins zero threads and returns 0 — not the nonzero exit the claim
requires for a thread-creation failure.  (`producer.c` lines 170-189
behave the same way: `break` out of the creation loop, join, `return 0`.) -/
theorem claim_C5_counterexample :
    cEnvThreadFail.accept = .conn ∧
    cEnvThreadFail.createOk 0 = false ∧
    (consumerMain cEnvThreadFail).threadsJoined = 0 ∧
    (consumerMain cEnvThreadFail).diag = ["pthread_create"] ∧
    (consumerMain cEnvThreadFail).exitCode = 0 := by
  decide

/-- C5 (amended): each process exits 0 on every normal completion,
including the consumer's no-connection timeout; it exits nonzero on bind,
listen, or accept failure and on connect failure beyond the retry budget;
but on a thread-creation failure the process joins the threads already
created and still exits 0. -/
theorem claim_C5 (cenv : ConsumerEnv) (penv : ProducerEnv)
    (hsock : cenv.socketOk = true) (hopt : cenv.sockoptOk = true)
    (hfork : penv.forkOk = true) (hfopen : penv.fopenOk = true)
    (hps : ∀ n, penv.sockOk n = true) :
    (cenv.bindOk = true → cenv.listenOk = true →
      ((cenv.accept = .timeout → (consumerMain cenv).exitCode = 0) ∧
       (cenv.accept = .conn → (consumerMain cenv).exitCode = 0) ∧
       (cenv.accept = .err → (consumerMain cenv).exitCode = EXIT_FAILURE))) ∧
    (cenv.bindOk = false → (consumerMain cenv).exitCode = EXIT_FAILURE) ∧
    (cenv.bindOk = true → cenv.listenOk = false →
      (consumerMain cenv).exitCode = EXIT_FAILURE) ∧
    ((∀ n, penv.conn n = .refused ∨ penv.conn n = .unreach) →
      (producerMain penv).exitCode = EXIT_FAILURE) ∧
    (penv.conn 0 = .ok → (producerMain penv).exitCode = 0) ∧
    (cenv.bindOk = true → cenv.listenOk = true → cenv.accept = .conn →
      cenv.createOk 0 = false →
      (consumerMain cenv).exitCode = 0 ∧
      (consumerMain cenv).threadsJoined = 0) := by
  refine ⟨?_, ?_, ?_, ?_, ?_, ?_⟩
  · intro hbind hlisten
    refine ⟨?_, ?_, ?_⟩ <;> intro hacc <;>
      simp [consumerMain, hsock, hopt, hbind, hlisten, hacc]
  · intro hbind
    simp [consumerMain, hsock, hopt, hbind]
  · intro hbind hlisten
    simp [consumerMain, hsock, hopt, hbind, hlisten]
  · intro hc
    have hcl := connectLoop_allRefused penv.conn penv.sockOk hps hc
      MAX_RETRIES 0 0 (by omega)
    simp [producerMain, hfork, hfopen, hcl]
  · intro hok
    have hcl := connectLoop_ok penv.conn penv.sockOk 0 0 (hps 0) hok
    simp [producerMain, hfork, hfopen, hcl]
  · intro hbind hlisten hacc hcre
    simp [consumerMain, hsock, hopt, hbind, hlisten, hacc, threadsCreated, hcre]

/-- A consumer environment where setup succeeds and the accept wait times
out, and a producer environment where everything succeeds. -/
def cEnvOk : ConsumerEnv := ⟨true, true, true, true, .timeout, fun _ => true, 0⟩

/-- A producer environment where fork, fopen, every socket creation and
every connect succeed. -/
def pEnvOk : ProducerEnv := ⟨true, true, fun _ => true, fun _ => .ok, fun _ => true⟩

theorem claim_C5_witness :
    (consumerMain cEnvOk).exitCode = 0 ∧ (producerMain pEnvOk).exitCode = 0 := by
  have h := claim_C5 cEnvOk pEnvOk rfl rfl rfl rfl (fun _ => rfl)
  exact ⟨(h.1 rfl rfl).1 rfl, h.2.2.2.2.1 rfl⟩

/-- C6: in the producer's connection loop, a connection-refused or
network-unreachable failure closes the failed socket, waits one 100 ms
interval, and recurses on a freshly created socket (attempt index `a + 1`)
with the retry counter incremented; when every attempt fails that way the
loop performs exactly `MAX_RETRIES + 1 = 51` attempts — the initial one
plus `MAX_RETRIES = 50` retries — each on its own socket, then kills the
consumer process and exits the producer with `EXIT_FAILURE`; and any
other connect error kills the consumer and exits with `EXIT_FAILURE` at
once. -/
theorem claim_C6 (conn : Nat → ConnOutcome) (sockOk : Nat → Bool)
    (hs : ∀ n, sockOk n = true) :
    (∀ a r, (conn a = .refused ∨ conn a = .unreach) → r + 1 ≤ MAX_RETRIES →
      connectLoop conn sockOk a r =
        ⟨(connectLoop conn sockOk (a + 1) (r + 1)).connected,
         (connectLoop conn sockOk (a + 1) (r + 1)).attempts + 1,
         (connectLoop conn sockOk (a + 1) (r + 1)).closedSockets + 1,
         (connectLoop conn sockOk (a + 1) (r + 1)).sleeps + 1,
         (connectLoop conn sockOk (a + 1) (r + 1)).killedChild,
         (connectLoop conn sockOk (a + 1) (r + 1)).exitCode⟩) ∧
    ((∀ n, conn n = .refused ∨ conn n = .unreach) →
      connectLoop conn sockOk 0 0 =
        ⟨false, MAX_RETRIES + 1, MAX_RETRIES + 1, MAX_RETRIES + 1, true,
         some EXIT_FAILURE⟩) ∧
    (∀ a r, conn a = .other →
      connectLoop conn sockOk a r = ⟨false, 1, 1, 0, true, some EXIT_FAILURE⟩) := by
  refine ⟨?_, ?_, ?_⟩
  · intro a r hc hr
    have hn : ¬ (r + 1 > MAX_RETRIES) := by omega
    rw [connectLoop, hs a]
    rcases hc with h | h <;> simp [h, hn]
  · intro hc
    exact connectLoop_allRefused conn sockOk hs hc MAX_RETRIES 0 0 (by omega)
  · intro a r hc
    rw [connectLoop, hs a]
    simp [hc]

theorem claim_C6_witness :
    connectLoop (fun _ => .refused) (fun _ => true) 0 0 =
      ⟨false, MAX_RETRIES + 1, MAX_RETRIES + 1, MAX_RETRIES + 1, true,
       some EXIT_FAILURE⟩ :=
  (claim_C6 (fun _ => .refused) (fun _ => true) (fun _ => rfl)).2.1
    (fun _ => Or.inl rfl)

/-- C7: when setup succeeds and no producer connects within the 5-second
accept window, the consumer prints the timeout diagnostic, creates no
threads, performs no buffer insertions and returns exit code 0. -/
theorem claim_C7 (env : ConsumerEnv) (h1 : env.socketOk = true)
    (h2 : env.sockoptOk = true) (h3 : env.bindOk = true)
    (h4 : env.listenOk = true) (h5 : env.accept = .timeout) :
    consumerMain env =
      ⟨0, ["No producer connected within timeout period"], 0, 0⟩ := by
  simp [consumerMain, h1, h2, h3, h4, h5]

theorem claim_C7_witness :
    consumerMain cEnvOk =
      ⟨0, ["No producer connected within timeout period"], 0, 0⟩ :=
  claim_C7 cEnvOk rfl rfl rfl rfl rfl

/-- C8: if the source holds exactly `K < MAX_DATA` values, then in any
completed run without send failures (both workers have left their loops)
the final `numbers_read` equals `K` and exactly `K` values were sent; the
source is exhausted; and a worker that finds the source exhausted or
malformed exits its loop without changing the shared state (in
particular without incrementing the counter). -/
theorem claim_C8 (src : List Int) (p : PPoolState)
    (hK : src.length < MAX_DATA) (h : PReach false src p)
    (hdone : ∀ u, u < NUM_THREADS → p.active u = false) :
    p.ps.numbers_read = src.length ∧
    p.sent.length = src.length ∧
    p.ps.source = [] ∧
    (∀ w n, n < MAX_DATA → producerIter w ⟨n, []⟩ = (⟨n, []⟩, .exitExhausted)) := by
  have h0 : p.active 0 = false := hdone 0 (by decide)
  have h1 : p.active 1 = false := hdone 1 (by decide)
  have hnil := pReach_exhausted src p hK h ⟨0, h0⟩
  obtain ⟨-, hlen, hdrop, hcount, hpend⟩ := pReach_invariant false src p h
  rw [hnil] at hdrop
  have hlen2 : src.length ≤ p.ps.numbers_read :=
    List.drop_eq_nil_iff.mp hdrop.symm
  have heq : p.ps.numbers_read = src.length := le_antisymm hlen hlen2
  refine ⟨heq, ?_, hnil, ?_⟩
  · have hp0 : p.pending 0 = none := hpend rfl 0 h0
    have hp1 : p.pending 1 = none := hpend rfl 1 h1
    have hc := hcount rfl
    rw [pendCount, hp0, hp1, optCount_none] at hc
    omega
  · intro w n hn
    have hn2 : ¬ n ≥ MAX_DATA := by omega
    simp [producerIter, hn2]

/-- The producer pool on an empty source after worker 0 runs once. -/
def pDemo0 : PPoolState := pApplyIter (pPoolInit []) 0

/-- ... and after worker 1 also runs once: both workers have exited. -/
def pDemo1 : PPoolState := pApplyIter pDemo0 1

theorem pDemo1_reach : PReach false [] pDemo1 :=
  PReach.step pDemo0 pDemo1
    (PReach.step (pPoolInit []) pDemo0 PReach.init
      (pPoolStep.lock (pPoolInit []) 0 (by decide) rfl rfl))
    (pPoolStep.lock pDemo0 1 (by decide) (by decide) (by decide))

theorem claim_C8_witness :
    pDemo1.ps.numbers_read = ([] : List Int).length ∧
    pDemo1.sent.length = ([] : List Int).length := by
  have h := claim_C8 [] pDemo1 (by decide) pDemo1_reach (by
    intro u hu
    unfold NUM_THREADS at hu
    interval_cases u <;> decide)
  exact ⟨h.1, h.2.1⟩

/-- C9: every abnormal outcome of the receive step — peer close, receive
error, or a short frame — leaves the shared buffer and its write index
exactly as they were (the iteration returns the state unchanged), and in
any reachable consumer state every occupied buffer slot holds the
decoding of some complete 4-byte frame. -/
theorem claim_C9 (w : Nat) (s : ConsumerState) (r : RecvResult)
    (hab : r = .closed ∨ r = .err ∨ ∃ n, r = .short n) :
    (consumerIter w s r).1 = s ∧
    (∀ p, CReach (fun _ => True) p → ∀ j, j < p.cs.idx →
      ∃ f : Frame, p.cs.buf j = decodeFrame f) := by
  constructor
  · rcases hab with h | h | ⟨n, h⟩
    · subst h
      by_cases hge : s.idx ≥ MAX_DATA <;> simp [consumerIter, hge]
    · subst h
      by_cases hge : s.idx ≥ MAX_DATA <;> simp [consumerIter, hge]
    · subst h
      by_cases hge : s.idx ≥ MAX_DATA <;> simp [consumerIter, hge]
  · intro p h j hj
    exact cReach_buf_prop _ (fun x => ∃ f, x = decodeFrame f)
      (fun f _ => ⟨f, rfl⟩) p h j hj

theorem claim_C9_witness :
    (consumerIter 0 cInitState .closed).1 = cInitState :=
  (claim_C9 0 cInitState .closed (Or.inl rfl)).1

/-- The pool state a `send` failure by worker `w` leaves behind
(`producer.c` lines 67-70): the worker's pending value is dropped and the
worker leaves its loop; nothing else changes. -/
def sendFailSucc (p : PPoolState) (w : Nat) : PPoolState :=
  ⟨p.ps, fun u => if u = w then none else p.pending u, p.sent,
   fun u => if u = w then false else p.active u⟩

/-- C10: the producer ignores `SIGPIPE` at startup (`producer.c` line 77),
so a send to a closed peer surfaces as an error return from `send` rather
than killing the process; the worker whose send fails takes a legal pool
step that exits only its own loop — the shared counter/source state, the
sent values, and every sibling worker are untouched. -/
theorem claim_C10 (p : PPoolState) (w : Nat) (v : Int)
    (hw : w < NUM_THREADS) (ha : p.active w = true)
    (hv : p.pending w = some v) :
    sendToClosedPeer producerIgnoresSigpipe = .errorReturn ∧
    pPoolStep true p (sendFailSucc p w) ∧
    (sendFailSucc p w).ps = p.ps ∧
    (sendFailSucc p w).sent = p.sent ∧
    (∀ u, u ≠ w → (sendFailSucc p w).active u = p.active u ∧
      (sendFailSucc p w).pending u = p.pending u) ∧
    (sendFailSucc p w).active w = false := by
  refine ⟨rfl, ?_, rfl, rfl, ?_, ?_⟩
  · exact pPoolStep.sendFail p w v rfl hw ha hv
  · intro u hu
    exact ⟨if_neg hu, if_neg hu⟩
  · exact if_pos rfl

/-- The producer pool on source `[3]` after worker 0 reads the value and
holds it as its pending send. -/
def pDemoSend : PPoolState := pApplyIter (pPoolInit [3]) 0

theorem claim_C10_witness :
    sendToClosedPeer producerIgnoresSigpipe = .errorReturn ∧
    (sendFailSucc pDemoSend 0).active 0 = false ∧
    (sendFailSucc pDemoSend 0).active 1 = pDemoSend.active 1 := by
  have h := claim_C10 pDemoSend 0 3 (by decide) (by decide) (by decide)
  exact ⟨h.1, h.2.2.2.2.2, (h.2.2.2.2.1 1 one_ne_zero).1⟩

end ProdCons
